import Mathlib

/-!
Shallow embedding of the repository's Python sources
(`splitters.py`, `loaders.py`, `pinecon.py`, `qdrant.py`) and proofs about
the claims of its design specification.

External libraries (langchain text splitters, BeautifulSoup, the Pinecone
and Qdrant clients) are modelled as explicit function parameters or as
small state machines reflecting the documented behaviour of the remote
services; everything written by the repository itself is translated
statement by statement.
-/

/-- Values stored in a document's metadata mapping (Python dict values:
the repository stores strings and integers there). -/
inductive MetaVal where
  | str : String → MetaVal
  | num : Nat → MetaVal
deriving DecidableEq, Repr

/-- A metadata mapping, `metadata: dict` in the Python sources.  Lookup is
by first matching key. -/
abbrev Meta := List (String × MetaVal)

/-- Python `{**m, k: v}`: every binding of `m` except `k` is kept, and `k`
is bound to `v`. -/
def msetKey (m : Meta) (k : String) (v : MetaVal) : Meta :=
  m.filter (fun p => p.1 != k) ++ [(k, v)]

/-- `langchain.schema.Document`: page content plus a metadata mapping. -/
structure Document where
  page_content : String
  metadata : Meta
deriving DecidableEq, Repr

namespace LangchainSplitters

/-- One chunk produced inside `recursive_text_splitter` /
`character_text_splitter` (splitters.py lines 86-92 and 125-131):
`Document(page_content=chunk, metadata={**doc.metadata, "chunkno": idx + 1})`
where `p = (idx, chunk)` comes from `enumerate(splits)`. -/
def mkChunk (doc : Document) (p : Nat × String) : Document :=
  { page_content := p.2
    metadata := msetKey doc.metadata "chunkno" (.num (p.1 + 1)) }

/-- The per-document body of the two plain text splitters:
`splits = text_splitter.split_text(doc.page_content)` followed by the
chunk comprehension.  `split_text` stands for the configured external
langchain splitter. -/
def chunkDoc (split_text : String → List String) (doc : Document) : List Document :=
  ((split_text doc.page_content).enum).map (mkChunk doc)

/-- Success path of `recursive_text_splitter` (splitters.py lines 83-95):
the loop over `self.docs` extending `all_chunked_docs` per document. -/
def recursiveCore (split_text : String → List String) (docs : List Document) :
    List Document :=
  (docs.map (chunkDoc split_text)).flatten

/-- Success path of `character_text_splitter` (splitters.py lines 122-134),
textually the same loop as the recursive one but delegating to the
character splitter. -/
def characterCore (split_text : String → List String) (docs : List Document) :
    List Document :=
  (docs.map (chunkDoc split_text)).flatten

/-- An HTML element as seen through BeautifulSoup: its tag name and the
result of `element.get_text()`.  A parsed document is its element list in
document order. -/
structure Elem where
  tag : String
  text : String
deriving DecidableEq, Repr

/-- `soup.find_all(tag)`: all elements with the given tag, in document
order. -/
def find_all (soup : List Elem) (tag : String) : List Elem :=
  soup.filter (fun e => e.tag == tag)

/-- splitters.py line 40:
`sections = [(header_tag, element.get_text()) for header_tag in
headers_to_split_on for element in soup.find_all(header_tag)]` —
the outer iteration is over the tag list, the inner over the matches of
one tag, so the sections are flattened by tag, not in document order. -/
def htmlSections (soup : List Elem) (headers_to_split_on : List String) :
    List (String × String) :=
  (headers_to_split_on.map (fun h => (find_all soup h).map (fun e => (h, e.text)))).flatten

/-- One chunk produced inside `html_splitter` (splitters.py lines 46-55):
metadata `{**doc.metadata, "chunkno": f"{idx+1}-{chunk_idx+1}",
"header_type": header}` where `p = (idx, (header, text))` enumerates the
sections and `q = (chunk_idx, chunk)` enumerates one section's chunks. -/
def mkHtmlChunk (doc : Document) (p : Nat × (String × String)) (q : Nat × String) :
    Document :=
  { page_content := q.2
    metadata :=
      msetKey
        (msetKey doc.metadata "chunkno"
          (.str (toString (p.1 + 1) ++ "-" ++ toString (q.1 + 1))))
        "header_type" (.str p.2.1) }

/-- The per-document body of `html_splitter` (splitters.py lines 39-56):
parse the document, build the sections, split each section's text and tag
each chunk. -/
def htmlChunkDoc (soupOf : String → List Elem) (split_text : String → List String)
    (headers_to_split_on : List String) (doc : Document) : List Document :=
  (((htmlSections (soupOf doc.page_content) headers_to_split_on).enum).map
    (fun p => ((split_text p.2.2).enum).map (mkHtmlChunk doc p))).flatten

/-- Success path of `html_splitter` (splitters.py lines 36-58): the loop
over `self.docs` extending `all_chunked_docs`. -/
def htmlCore (soupOf : String → List Elem) (split_text : String → List String)
    (headers_to_split_on : List String) (docs : List Document) : List Document :=
  (docs.map (htmlChunkDoc soupOf split_text headers_to_split_on)).flatten

/-- The body of `recursive_text_splitter` when the external
`split_text` may raise (modelled as `Except`): the loop aborts at the
first raised exception, discarding all chunks built so far. -/
def recursiveSplitBody (split_text : String → Except String (List String)) :
    List Document → Except String (List Document)
  | [] => .ok []
  | doc :: ds => do
      let splits ← split_text doc.page_content
      let rest ← recursiveSplitBody split_text ds
      pure ((splits.enum).map (mkChunk doc) ++ rest)

/-- `recursive_text_splitter` with its `try/except` (splitters.py lines
75-99): on any exception it prints a diagnostic and returns `[]`.  The
second component collects the printed diagnostics. -/
def recursive_text_splitter (split_text : String → Except String (List String))
    (docs : List Document) : List Document × List String :=
  match recursiveSplitBody split_text docs with
  | .ok r => (r, [])
  | .error e => ([], ["Error in recursive_text_splitter: " ++ e])

/-- The body of `character_text_splitter` when the external `split_text`
may raise. -/
def characterSplitBody (split_text : String → Except String (List String)) :
    List Document → Except String (List Document)
  | [] => .ok []
  | doc :: ds => do
      let splits ← split_text doc.page_content
      let rest ← characterSplitBody split_text ds
      pure ((splits.enum).map (mkChunk doc) ++ rest)

/-- `character_text_splitter` with its `try/except` (splitters.py lines
113-138). -/
def character_text_splitter (split_text : String → Except String (List String))
    (docs : List Document) : List Document × List String :=
  match characterSplitBody split_text docs with
  | .ok r => (r, [])
  | .error e => ([], ["Error in character_text_splitter: " ++ e])

/-- The inner loop of `html_splitter` over the enumerated sections of one
document, when `split_text` may raise. -/
def htmlSectionsBody (split_text : String → Except String (List String))
    (doc : Document) : List (Nat × (String × String)) → Except String (List Document)
  | [] => .ok []
  | p :: ps => do
      let chunks ← split_text p.2.2
      let rest ← htmlSectionsBody split_text doc ps
      pure ((chunks.enum).map (mkHtmlChunk doc p) ++ rest)

/-- The body of `html_splitter` over the document list, when `split_text`
may raise. -/
def htmlSplitBody (soupOf : String → List Elem)
    (split_text : String → Except String (List String))
    (headers_to_split_on : List String) :
    List Document → Except String (List Document)
  | [] => .ok []
  | doc :: ds => do
      let chunked ← htmlSectionsBody split_text doc
        ((htmlSections (soupOf doc.page_content) headers_to_split_on).enum)
      let rest ← htmlSplitBody soupOf split_text headers_to_split_on ds
      pure (chunked ++ rest)

/-- `html_splitter` with its `try/except` (splitters.py lines 28-62): on
any exception it prints a diagnostic and returns `[]`. -/
def html_splitter (soupOf : String → List Elem)
    (split_text : String → Except String (List String))
    (headers_to_split_on : List String) (docs : List Document) :
    List Document × List String :=
  match htmlSplitBody soupOf split_text headers_to_split_on docs with
  | .ok r => (r, [])
  | .error e => ([], ["Error in html_splitter: " ++ e])

end LangchainSplitters

/-! Embedding of `loaders.py`. -/

/-- Exceptions a delegated langchain loader call can raise:
`FileNotFoundError` or any other exception (carrying its message). -/
inductive LoadErr where
  | fileNotFound : LoadErr
  | other : String → LoadErr
deriving DecidableEq, Repr

/-- The `LangChainLoader` instance attributes set in `__init__`
(loaders.py lines 16-24): both default to `None` and no load method ever
assigns them. -/
structure LangChainLoader where
  file_path : Option String
  url : Option String
deriving DecidableEq, Repr

namespace LangChainLoader

/-- `LangChainLoader.__init__`: `self.file_path = None; self.url = None`. -/
def init : LangChainLoader := { file_path := none, url := none }

/-- Python string interpolation of an `Optional[str]`: `None` prints as
the four characters `None`. -/
def pyShowOpt : Option String → String
  | none => "None"
  | some s => s

/-- `load_as_textfile` (loaders.py lines 26-49).  `textLoaderLoad` models
`TextLoader(file_path).load()`.  On `FileNotFoundError` it prints
`Error: The file '{self.file_path}' was not found.` (note: the instance
attribute, not the argument) and re-raises; on any other exception it
prints a generic message and re-raises.  The second component collects
the printed diagnostics. -/
def load_as_textfile (self : LangChainLoader)
    (textLoaderLoad : String → Except LoadErr (List Document))
    (file_path : String) : Except LoadErr (List Document) × List String :=
  match textLoaderLoad file_path with
  | .ok documents => (.ok documents, [])
  | .error .fileNotFound =>
      (.error .fileNotFound,
        ["Error: The file '" ++ pyShowOpt self.file_path ++ "' was not found."])
  | .error (.other e) =>
      (.error (.other e),
        ["An error occurred while loading the text file: " ++ e])

/-- `load_as_csv` (loaders.py lines 51-77).  `csvLoaderLoad` models
`CSVLoader(file_path=..., csv_args=...).load()`.  Same structure as
`load_as_textfile`. -/
def load_as_csv (self : LangChainLoader)
    (csvLoaderLoad : String → Except LoadErr (List Document))
    (file_path : String) : Except LoadErr (List Document) × List String :=
  match csvLoaderLoad file_path with
  | .ok documents => (.ok documents, [])
  | .error .fileNotFound =>
      (.error .fileNotFound,
        ["Error: The file '" ++ pyShowOpt self.file_path ++ "' was not found."])
  | .error (.other e) =>
      (.error (.other e),
        ["An error occurred while loading the CSV file: " ++ e])

end LangChainLoader

/-! Embedding of `pinecon.py`. -/

/-- A Pinecone index as registered by `pc.create_index`: its name, its
dimension and its similarity metric. -/
structure PineconeIndex where
  name : String
  dimension : Nat
  metric : String
deriving DecidableEq, Repr

/-- The state of the remote Pinecone service visible to this adapter:
the list of existing indexes. -/
structure PineconeState where
  indexes : List PineconeIndex
deriving DecidableEq, Repr

/-- `pc.list_indexes().names()`. -/
def pcListIndexNames (st : PineconeState) : List String :=
  st.indexes.map (fun i => i.name)

/-- The conflict message the remote Pinecone service raises when an index
with the same name already exists. -/
def pcConflictMsg (name : String) : String :=
  "Resource already exists: index " ++ name

/-- Model of the remote service call `pc.create_index(...)`: raises a
conflict error when an index of that name already exists, otherwise
registers the new index. -/
def pcCreateIndex (st : PineconeState) (name : String) (dimension : Nat)
    (metric : String) : Except String PineconeState :=
  if name ∈ pcListIndexNames st then .error (pcConflictMsg name)
  else .ok { indexes := st.indexes ++ [{ name := name, dimension := dimension, metric := metric }] }

/-- Model of the remote service call `pc.delete_index(name)`: removes the
index. -/
def pcDeleteIndex (st : PineconeState) (name : String) : PineconeState :=
  { indexes := st.indexes.filter (fun i => i.name != name) }

namespace PineconeInsertRetrieval

/-- `check_index` (pinecon.py lines 15-30): reports whether the index is
in the service's index listing. -/
def check_index (st : PineconeState) (index : String) : String :=
  if index ∉ pcListIndexNames st then "Not Found index"
  else "Your index name " ++ index ++ " Found"

/-- `create_index` (pinecon.py lines 32-58): calls the service with
`metric="cosine"`; on success prints a message and returns the index
name, on any exception returns the string `Sorry, try again. {ex}` —
the exception is swallowed.  Result: (returned string, service state
after the call, printed diagnostics). -/
def create_index (st : PineconeState) (index_name : String) (dimensions : Nat) :
    String × PineconeState × List String :=
  match pcCreateIndex st index_name dimensions "cosine" with
  | .ok st' =>
      (index_name, st', ["Your index " ++ index_name ++ " created successfully"])
  | .error ex => ("Sorry, try again. " ++ ex, st, [])

/-- `delete_index_name` (pinecon.py lines 60-78): lists the indexes
first; if the name is absent it returns a does-not-exist message without
calling delete, otherwise it deletes and reports success. -/
def delete_index_name (st : PineconeState) (index_name : String) :
    String × PineconeState :=
  if index_name ∉ pcListIndexNames st then
    ("Index '" ++ index_name ++ "' does not exist.", st)
  else
    ("Index '" ++ index_name ++ "' deleted successfully.", pcDeleteIndex st index_name)

end PineconeInsertRetrieval

/-! Embedding of `qdrant.py`. -/

/-- `qdrant_client.models.Distance`. -/
inductive Distance where
  | cosine | euclid | dot
deriving DecidableEq, Repr

/-- `qdrant_client.models.VectorParams`. -/
structure VectorParams where
  size : Nat
  distance : Distance
deriving DecidableEq, Repr

/-- The state of the remote Qdrant service visible to this adapter: the
existing collections with the vector parameters they were created with. -/
structure QdrantState where
  collections : List (String × VectorParams)
deriving DecidableEq, Repr

/-- Names of the existing collections. -/
def qdCollectionNames (st : QdrantState) : List String :=
  st.collections.map (fun c => c.1)

/-- The conflict message the remote Qdrant service raises when a
collection with the same name already exists. -/
def qdConflictMsg (name : String) : String :=
  "Collection " ++ name ++ " already exists!"

/-- Model of the remote service call
`qdrant_client.create_collection(name, vectors_config=params)`: raises a
conflict error when the collection already exists, otherwise registers it
with the given vector parameters. -/
def qdrantClientCreateCollection (st : QdrantState) (name : String)
    (params : VectorParams) : Except String QdrantState :=
  if name ∈ qdCollectionNames st then .error (qdConflictMsg name)
  else .ok { collections := st.collections ++ [(name, params)] }

/-- Model of the remote service call
`qdrant_client.delete_collection(name)`: removes the collection when
present and reports whether anything was deleted; it does not raise for a
missing collection. -/
def qdrantClientDeleteCollection (st : QdrantState) (name : String) :
    Bool × QdrantState :=
  (name ∈ qdCollectionNames st,
    { collections := st.collections.filter (fun c => c.1 != name) })

/-- A `QdrantVectorStore` handle bound to one collection. -/
structure QdrantHandle where
  collection_name : String
deriving DecidableEq, Repr

namespace QdrantInsertRetrievalAll

/-- `insertion` (qdrant.py lines 21-42): a bare call to
`QdrantVectorStore.from_documents` (modelled by `from_documents`, which
may raise) followed by a success print.  There is no `try/except`: an
exception propagates to the caller. -/
def insertion (from_documents : List Document → String → Except String QdrantHandle)
    (text : List Document) (collection_name : String) :
    Except String (QdrantHandle × List String) :=
  match from_documents text collection_name with
  | .ok qdrant => .ok (qdrant, ["Insertion successful"])
  | .error e => .error e

/-- `retrieval` (qdrant.py lines 45-61): builds a store handle bound to
the collection; no `try/except`. -/
def retrieval (collection_name : String) : QdrantHandle :=
  { collection_name := collection_name }

/-- `delete_collection` (qdrant.py lines 64-79): calls the client's
delete without any existence check and returns the collection name
unconditionally; no `try/except`. -/
def delete_collection (st : QdrantState) (collection_name : String) :
    String × QdrantState :=
  let r := qdrantClientDeleteCollection st collection_name
  (collection_name, r.2)

/-- `create_collection` (qdrant.py lines 82-101): calls the client with
the literal `VectorParams(size=384, distance=Distance.COSINE)` for every
collection name; no `try/except`, so the service's conflict error
propagates to the caller.  On success: (returned name, new service state,
printed diagnostics). -/
def create_collection (st : QdrantState) (collection_name : String) :
    Except String (String × QdrantState × List String) :=
  match qdrantClientCreateCollection st collection_name
      { size := 384, distance := Distance.cosine } with
  | .ok st' =>
      .ok (collection_name, st',
        ["Your collection " ++ collection_name ++ " created successfully"])
  | .error e => .error e

end QdrantInsertRetrievalAll

/-! Helper lemmas about the metadata mapping. -/

theorem lookup_msetKey_self (m : Meta) (k : String) (v : MetaVal) :
    (msetKey m k v).lookup k = some v := by
  induction m with
  | nil => simp [msetKey, List.lookup]
  | cons p m ih =>
      unfold msetKey at ih ⊢
      rw [List.filter_cons]
      by_cases h : p.1 = k
      · simp [h, ih]
      · simp only [bne_iff_ne, ne_eq, h, not_false_eq_true, if_pos, ite_true,
          cond_true, List.cons_append, List.lookup]
        have : (k == p.1) = false := by
          simp [beq_eq_false_iff_ne]
          exact fun hk => h hk.symm
        simp [this, ih]

theorem lookup_msetKey_ne (m : Meta) (k : String) (v : MetaVal) (q : String)
    (hq : q ≠ k) : (msetKey m k v).lookup q = m.lookup q := by
  have hqk : (q == k) = false := by simp [beq_eq_false_iff_ne, hq]
  induction m with
  | nil => simp [msetKey, List.lookup, hqk]
  | cons p m ih =>
      unfold msetKey at ih ⊢
      rw [List.filter_cons]
      by_cases h : p.1 = k
      · simp [h, ih, List.lookup, hqk]
      · simp only [bne_iff_ne, ne_eq, h, not_false_eq_true, if_pos, ite_true,
          cond_true, List.cons_append, List.lookup]
        by_cases hqp : q = p.1
        · simp [hqp]
        · have : (q == p.1) = false := by simp [beq_eq_false_iff_ne, hqp]
          simp [this, ih]

/-- C4: every loader operation propagates the delegated library's
failure to the caller unchanged (Not-Found stays Not-Found, any other
parse failure stays that failure), never returning a partial document
list, and it prints a diagnostic exactly when the call fails. -/
theorem loaders_reraise_after_logging (self : LangChainLoader)
    (textLoaderLoad csvLoaderLoad : String → Except LoadErr (List Document))
    (file_path : String) :
    (LangChainLoader.load_as_textfile self textLoaderLoad file_path).1 =
        textLoaderLoad file_path
    ∧ ((LangChainLoader.load_as_textfile self textLoaderLoad file_path).2 = []
        ↔ (textLoaderLoad file_path).isOk = true)
    ∧ (LangChainLoader.load_as_csv self csvLoaderLoad file_path).1 =
        csvLoaderLoad file_path
    ∧ ((LangChainLoader.load_as_csv self csvLoaderLoad file_path).2 = []
        ↔ (csvLoaderLoad file_path).isOk = true) := by
  refine ⟨?_, ?_, ?_, ?_⟩
  · cases h : textLoaderLoad file_path with
    | ok docs => simp [LangChainLoader.load_as_textfile, h]
    | error e => cases e <;> simp [LangChainLoader.load_as_textfile, h]
  · cases h : textLoaderLoad file_path with
    | ok docs => simp [LangChainLoader.load_as_textfile, h, Except.isOk, Except.toBool]
    | error e => cases e <;> simp [LangChainLoader.load_as_textfile, h, Except.isOk, Except.toBool]
  · cases h : csvLoaderLoad file_path with
    | ok docs => simp [LangChainLoader.load_as_csv, h]
    | error e => cases e <;> simp [LangChainLoader.load_as_csv, h]
  · cases h : csvLoaderLoad file_path with
    | ok docs => simp [LangChainLoader.load_as_csv, h, Except.isOk, Except.toBool]
    | error e => cases e <;> simp [LangChainLoader.load_as_csv, h, Except.isOk, Except.toBool]

/-- C10: on a `FileNotFoundError` the loaders interpolate the instance
attribute `self.file_path` — which `__init__` set to `None` and no load
method ever assigns — so the logged Not-Found diagnostic is the constant
string `Error: The file 'None' was not found.`, independent of the path
argument of the failing call. -/
theorem loader_not_found_message_is_constant
    (textLoaderLoad csvLoaderLoad : String → Except LoadErr (List Document))
    (p q : String)
    (hp : textLoaderLoad p = .error .fileNotFound)
    (hq : csvLoaderLoad q = .error .fileNotFound) :
    (LangChainLoader.load_as_textfile LangChainLoader.init textLoaderLoad p).2 =
        ["Error: The file 'None' was not found."]
    ∧ (LangChainLoader.load_as_csv LangChainLoader.init csvLoaderLoad q).2 =
        ["Error: The file 'None' was not found."] := by
  constructor
  · simp [LangChainLoader.load_as_textfile, hp, LangChainLoader.init,
      LangChainLoader.pyShowOpt]
  · simp [LangChainLoader.load_as_csv, hq, LangChainLoader.init,
      LangChainLoader.pyShowOpt]

/-- Witness for C10 at a concrete failing call: loading the concrete
path `data.txt` whose file is missing logs the constant message. -/
theorem loader_not_found_message_is_constant_witness :
    (LangChainLoader.load_as_textfile LangChainLoader.init
        (fun _ => .error .fileNotFound) "data.txt").2 =
      ["Error: The file 'None' was not found."]
    ∧ (LangChainLoader.load_as_csv LangChainLoader.init
        (fun _ => .error .fileNotFound) "table.csv").2 =
      ["Error: The file 'None' was not found."] :=
  loader_not_found_message_is_constant
    (fun _ => .error .fileNotFound) (fun _ => .error .fileNotFound)
    "data.txt" "table.csv" rfl rfl

/-- C8: `create_collection` of the Qdrant adapter always creates the
collection with the literal vector parameters size 384 and cosine
distance, whatever the collection name; the operation does not even
receive the caller's embedding function. -/
theorem qdrant_create_collection_fixed_dimension (st : QdrantState)
    (collection_name : String)
    (h : collection_name ∉ qdCollectionNames st) :
    QdrantInsertRetrievalAll.create_collection st collection_name =
      .ok (collection_name,
        { collections := st.collections ++
            [(collection_name, { size := 384, distance := Distance.cosine })] },
        ["Your collection " ++ collection_name ++ " created successfully"]) := by
  simp [QdrantInsertRetrievalAll.create_collection, qdrantClientCreateCollection, h]

/-- Witness for C8 on a fresh service state and a concrete name. -/
theorem qdrant_create_collection_fixed_dimension_witness :
    QdrantInsertRetrievalAll.create_collection { collections := [] } "docs" =
      .ok ("docs",
        { collections := [("docs", { size := 384, distance := Distance.cosine })] },
        ["Your collection docs created successfully"]) := by
  have h := qdrant_create_collection_fixed_dimension { collections := [] } "docs"
    (by decide)
  simpa using h

/-- Decidable substring test used to state what a does-not-exist message
is: `containsSub sub s` holds when `sub` occurs contiguously in `s`. -/
def containsSub (sub s : String) : Bool :=
  (List.range (s.toList.length + 1)).any (fun i => sub.toList.isPrefixOf (s.toList.drop i))

/-- C5 counterexample: the Qdrant adapter does not convert errors to
strings.  `create_collection` of an existing collection propagates the
service's exception (`Except.error`), and `insertion` propagates any
exception raised by `QdrantVectorStore.from_documents` — so it is false
that every error path of both adapters returns a human-readable string
and that no adapter operation propagates an exception. -/
theorem qdrant_adapter_raises_cex :
    QdrantInsertRetrievalAll.create_collection
        { collections := [("docs", { size := 384, distance := Distance.cosine })] }
        "docs"
      = .error (qdConflictMsg "docs")
    ∧ QdrantInsertRetrievalAll.insertion
        (fun _ _ => .error "connection refused") [] "docs"
      = .error "connection refused" :=
  ⟨rfl, rfl⟩

/-- C5 amended: the Pinecone adapter converts every error on the cited
path to a human-readable string (conflict on `create_index` comes back as
`Sorry, try again. ...` with the service state unchanged), while the
Qdrant adapter's `insertion` and `create_collection` have no handler and
propagate the exception to the caller. -/
theorem error_discipline_by_adapter :
    (∀ (st : PineconeState) (name : String) (dims : Nat),
        name ∈ pcListIndexNames st →
        PineconeInsertRetrieval.create_index st name dims =
          ("Sorry, try again. " ++ pcConflictMsg name, st, []))
    ∧ (∀ (from_documents : List Document → String → Except String QdrantHandle)
        (text : List Document) (cname e : String),
        from_documents text cname = .error e →
        QdrantInsertRetrievalAll.insertion from_documents text cname = .error e)
    ∧ (∀ (st : QdrantState) (name : String),
        name ∈ qdCollectionNames st →
        QdrantInsertRetrievalAll.create_collection st name =
          .error (qdConflictMsg name)) := by
  refine ⟨?_, ?_, ?_⟩
  · intro st name dims h
    simp [PineconeInsertRetrieval.create_index, pcCreateIndex, h]
  · intro from_documents text cname e h
    simp [QdrantInsertRetrievalAll.insertion, h]
  · intro st name h
    simp [QdrantInsertRetrievalAll.create_collection, qdrantClientCreateCollection, h]

/-- Witness for the amended C5 at concrete inputs. -/
theorem error_discipline_by_adapter_witness :
    PineconeInsertRetrieval.create_index
        { indexes := [{ name := "docs", dimension := 384, metric := "cosine" }] }
        "docs" 384 =
      ("Sorry, try again. " ++ pcConflictMsg "docs",
        { indexes := [{ name := "docs", dimension := 384, metric := "cosine" }] }, [])
    ∧ QdrantInsertRetrievalAll.insertion (fun _ _ => .error "boom") [] "notes" =
        .error "boom"
    ∧ QdrantInsertRetrievalAll.create_collection
        { collections := [("notes", { size := 384, distance := Distance.cosine })] }
        "notes" = .error (qdConflictMsg "notes") := by
  obtain ⟨h1, h2, h3⟩ := error_discipline_by_adapter
  exact ⟨h1 _ "docs" 384 (by decide), h2 _ [] "notes" "boom" rfl, h3 _ "notes" (by decide)⟩

/-- C6 counterexample: creating the same Qdrant collection twice does not
surface the conflict wrapped as a string error result — the first call
succeeds, the second propagates the service's raised conflict error, so
the claim is false for the Qdrant adapter. -/
theorem qdrant_double_create_raises_cex :
    QdrantInsertRetrievalAll.create_collection { collections := [] } "reports" =
      .ok ("reports",
        { collections := [("reports", { size := 384, distance := Distance.cosine })] },
        ["Your collection reports created successfully"])
    ∧ QdrantInsertRetrievalAll.create_collection
        { collections := [("reports", { size := 384, distance := Distance.cosine })] }
        "reports" = .error (qdConflictMsg "reports") :=
  ⟨rfl, rfl⟩

/-- C6 amended: index/collection creation is not idempotent for either
adapter; a second creation with the same name surfaces the service's
conflict error, wrapped as a string by the Pinecone adapter (distinct
from the success value and leaving the service state unchanged), and
propagated as a raised exception by the Qdrant adapter. -/
theorem create_index_twice_conflict (st : PineconeState) (qst : QdrantState)
    (name qname : String) (dims : Nat)
    (hp : name ∉ pcListIndexNames st) (hq : qname ∉ qdCollectionNames qst) :
    (PineconeInsertRetrieval.create_index st name dims).1 = name
    ∧ (PineconeInsertRetrieval.create_index
        (PineconeInsertRetrieval.create_index st name dims).2.1 name dims).1 =
        "Sorry, try again. " ++ pcConflictMsg name
    ∧ (PineconeInsertRetrieval.create_index
        (PineconeInsertRetrieval.create_index st name dims).2.1 name dims).1 ≠ name
    ∧ (PineconeInsertRetrieval.create_index
        (PineconeInsertRetrieval.create_index st name dims).2.1 name dims).2.1 =
        (PineconeInsertRetrieval.create_index st name dims).2.1
    ∧ ∀ r, QdrantInsertRetrievalAll.create_collection qst qname = .ok r →
        QdrantInsertRetrievalAll.create_collection r.2.1 qname =
          .error (qdConflictMsg qname) := by
  have hfirst : PineconeInsertRetrieval.create_index st name dims =
      (name,
        { indexes := st.indexes ++ [{ name := name, dimension := dims, metric := "cosine" }] },
        ["Your index " ++ name ++ " created successfully"]) := by
    simp [PineconeInsertRetrieval.create_index, pcCreateIndex, hp]
  have hproj : (PineconeInsertRetrieval.create_index st name dims).2.1 =
      { indexes := st.indexes ++ [{ name := name, dimension := dims, metric := "cosine" }] } := by
    rw [hfirst]
  have hmem : name ∈ pcListIndexNames
      ({ indexes := st.indexes ++ [{ name := name, dimension := dims, metric := "cosine" }] } :
        PineconeState) := by
    simp [pcListIndexNames]
  have hsecond : PineconeInsertRetrieval.create_index
      (PineconeInsertRetrieval.create_index st name dims).2.1 name dims =
      ("Sorry, try again. " ++ pcConflictMsg name,
        (PineconeInsertRetrieval.create_index st name dims).2.1, []) := by
    rw [hproj]
    simp [PineconeInsertRetrieval.create_index, pcCreateIndex, hmem]
  refine ⟨by rw [hfirst], by rw [hsecond], ?_, by rw [hsecond], ?_⟩
  · rw [hsecond]
    intro h
    have hlen := congrArg String.length h
    simp only [pcConflictMsg] at hlen
    rw [String.length_append, String.length_append] at hlen
    have h18 : ("Sorry, try again. " : String).length = 18 := rfl
    have h31 : ("Resource already exists: index " : String).length = 31 := rfl
    rw [h18, h31] at hlen
    omega
  · intro r hr
    have hok : QdrantInsertRetrievalAll.create_collection qst qname =
        .ok (qname,
          { collections := qst.collections ++
              [(qname, { size := 384, distance := Distance.cosine })] },
          ["Your collection " ++ qname ++ " created successfully"]) := by
      simp [QdrantInsertRetrievalAll.create_collection, qdrantClientCreateCollection, hq]
    rw [hok] at hr
    cases hr
    simp [QdrantInsertRetrievalAll.create_collection, qdrantClientCreateCollection,
      qdCollectionNames]

/-- Witness for the amended C6 starting from empty services. -/
theorem create_index_twice_conflict_witness :
    (PineconeInsertRetrieval.create_index { indexes := [] } "docs" 8).1 = "docs"
    ∧ (PineconeInsertRetrieval.create_index
        (PineconeInsertRetrieval.create_index { indexes := [] } "docs" 8).2.1 "docs" 8).1 =
        "Sorry, try again. " ++ pcConflictMsg "docs"
    ∧ (PineconeInsertRetrieval.create_index
        (PineconeInsertRetrieval.create_index { indexes := [] } "docs" 8).2.1 "docs" 8).1 ≠ "docs"
    ∧ (PineconeInsertRetrieval.create_index
        (PineconeInsertRetrieval.create_index { indexes := [] } "docs" 8).2.1 "docs" 8).2.1 =
        (PineconeInsertRetrieval.create_index { indexes := [] } "docs" 8).2.1
    ∧ ∀ r, QdrantInsertRetrievalAll.create_collection { collections := [] } "docs" = .ok r →
        QdrantInsertRetrievalAll.create_collection r.2.1 "docs" =
          .error (qdConflictMsg "docs") :=
  create_index_twice_conflict { indexes := [] } { collections := [] }
    "docs" "docs" 8 (by decide) (by decide)

/-- C7 counterexample: the Qdrant adapter's `delete_collection` performs
no existence check — deleting a collection that does not exist returns
the plain collection name, which is not a does-not-exist message. -/
theorem qdrant_delete_missing_cex :
    QdrantInsertRetrievalAll.delete_collection { collections := [] } "docs" =
      ("docs", { collections := [] })
    ∧ containsSub "does not exist" "docs" = false :=
  ⟨rfl, by decide⟩

/-- C7 amended: only the Pinecone adapter checks existence before
deleting an index, returning `Index '...' does not exist.` for a missing
name and leaving the service untouched; the Qdrant adapter deletes
without any pre-check and returns the collection name unconditionally. -/
theorem delete_index_existence_check (st : PineconeState) (qst : QdrantState)
    (name qname : String) (h : name ∉ pcListIndexNames st) :
    PineconeInsertRetrieval.delete_index_name st name =
      ("Index '" ++ name ++ "' does not exist.", st)
    ∧ QdrantInsertRetrievalAll.delete_collection qst qname =
      (qname, { collections := qst.collections.filter (fun c => c.1 != qname) }) := by
  constructor
  · simp [PineconeInsertRetrieval.delete_index_name, h]
  · rfl

/-- Witness for the amended C7 at concrete inputs. -/
theorem delete_index_existence_check_witness :
    PineconeInsertRetrieval.delete_index_name { indexes := [] } "docs" =
      ("Index 'docs' does not exist.", { indexes := [] })
    ∧ QdrantInsertRetrievalAll.delete_collection
        { collections := [("docs", { size := 384, distance := Distance.cosine })] }
        "docs" = ("docs", { collections := [] }) := by
  have h := delete_index_existence_check { indexes := [] }
    { collections := [("docs", { size := 384, distance := Distance.cosine })] }
    "docs" "docs" (by decide)
  simpa using h

/-! Concrete inputs used by the splitter claims. -/

/-- A splitter behaviour returning the whole text as one chunk (what the
external splitter does whenever the text fits into one chunk). -/
def splitOne : String → List String := fun s => [s]

/-- A splitter behaviour producing two chunks. -/
def splitTwo : String → List String := fun s => [s, s]

/-- A source document whose metadata already contains the reserved key
`chunkno`. -/
def origDoc : Document :=
  { page_content := "hello world", metadata := [("chunkno", MetaVal.str "orig")] }

/-- C2 counterexample: the splitters key the chunk index as `chunkno`,
not `chunk_number`, and a pre-existing `chunkno` metadata entry of the
source document is overwritten rather than preserved — refuting the
claim on a document whose metadata already binds `chunkno`. -/
theorem chunk_number_key_cex :
    ¬ (∀ c ∈ LangchainSplitters.recursiveCore splitOne [origDoc],
        (c.metadata.lookup "chunk_number").isSome = true
        ∧ c.metadata.lookup "chunkno" = origDoc.metadata.lookup "chunkno") := by
  decide

/-- C2 amended: both plain text splitters process each source document
independently (the output is the concatenation of the per-document chunk
lists), number the chunks of each source document under the metadata key
`chunkno` starting at 1 and increasing by 1 in content order, and
preserve every original metadata entry whose key is not `chunkno`. -/
theorem splitters_chunk_numbering (split_text : String → List String)
    (docs : List Document) (doc : Document) (i : Nat)
    (h : i < (LangchainSplitters.chunkDoc split_text doc).length)
    (k : String) (hk : k ≠ "chunkno") :
    LangchainSplitters.recursiveCore split_text docs =
      (docs.map (LangchainSplitters.chunkDoc split_text)).flatten
    ∧ LangchainSplitters.characterCore split_text docs =
      (docs.map (LangchainSplitters.chunkDoc split_text)).flatten
    ∧ (LangchainSplitters.chunkDoc split_text doc).length =
      (split_text doc.page_content).length
    ∧ ((LangchainSplitters.chunkDoc split_text doc).get ⟨i, h⟩).metadata.lookup "chunkno"
      = some (MetaVal.num (i + 1))
    ∧ ((LangchainSplitters.chunkDoc split_text doc).get ⟨i, h⟩).page_content
      = (split_text doc.page_content).getD i ""
    ∧ ((LangchainSplitters.chunkDoc split_text doc).get ⟨i, h⟩).metadata.lookup k
      = doc.metadata.lookup k := by
  have hlen : (LangchainSplitters.chunkDoc split_text doc).length =
      (split_text doc.page_content).length := by
    simp [LangchainSplitters.chunkDoc, List.enum_length]
  have hi : i < (split_text doc.page_content).length := hlen ▸ h
  have hget : (LangchainSplitters.chunkDoc split_text doc).get ⟨i, h⟩ =
      LangchainSplitters.mkChunk doc (i, (split_text doc.page_content).get ⟨i, hi⟩) := by
    simp [LangchainSplitters.chunkDoc, List.get_eq_getElem, List.getElem_map,
      List.getElem_enum]
  refine ⟨rfl, rfl, hlen, ?_, ?_, ?_⟩
  · rw [hget]
    exact lookup_msetKey_self doc.metadata "chunkno" (MetaVal.num (i + 1))
  · rw [hget]
    simp [LangchainSplitters.mkChunk, List.getD_eq_getElem, hi, List.get_eq_getElem]
  · rw [hget]
    exact lookup_msetKey_ne doc.metadata "chunkno" (MetaVal.num (i + 1)) k hk

/-- A source document with an ordinary metadata entry. -/
def sourceDoc : Document :=
  { page_content := "ab", metadata := [("source", MetaVal.str "file.txt")] }

/-- Witness for the amended C2: splitting a concrete two-chunk document
numbers the second chunk 2 and keeps the `source` entry. -/
theorem splitters_chunk_numbering_witness :
    LangchainSplitters.recursiveCore splitTwo [sourceDoc] =
      ([sourceDoc].map (LangchainSplitters.chunkDoc splitTwo)).flatten
    ∧ LangchainSplitters.characterCore splitTwo [sourceDoc] =
      ([sourceDoc].map (LangchainSplitters.chunkDoc splitTwo)).flatten
    ∧ (LangchainSplitters.chunkDoc splitTwo sourceDoc).length =
      (splitTwo sourceDoc.page_content).length
    ∧ ((LangchainSplitters.chunkDoc splitTwo sourceDoc).get
        ⟨1, by decide⟩).metadata.lookup "chunkno" = some (MetaVal.num 2)
    ∧ ((LangchainSplitters.chunkDoc splitTwo sourceDoc).get
        ⟨1, by decide⟩).page_content = (splitTwo sourceDoc.page_content).getD 1 ""
    ∧ ((LangchainSplitters.chunkDoc splitTwo sourceDoc).get
        ⟨1, by decide⟩).metadata.lookup "source" = sourceDoc.metadata.lookup "source" :=
  splitters_chunk_numbering splitTwo [sourceDoc] sourceDoc 1 (by decide)
    "source" (by decide)

/-- A BeautifulSoup behaviour for the concrete one-header document. -/
def soupOne : String → List LangchainSplitters.Elem :=
  fun s => if s = "<h1>t</h1>" then [{ tag := "h1", text := "t" }] else []

/-- A source document whose metadata already contains the reserved key
`header_type`. -/
def headerDoc : Document :=
  { page_content := "<h1>t</h1>", metadata := [("header_type", MetaVal.str "orig")] }

/-- C9 counterexample: the reserved metadata keys do collide with source
metadata — an original `header_type` entry is overwritten by the HTML
splitter instead of surviving into the chunk. -/
theorem reserved_key_collision_cex :
    ¬ (∀ c ∈ LangchainSplitters.htmlCore soupOne splitOne ["h1"] [headerDoc],
        c.metadata.lookup "header_type" = headerDoc.metadata.lookup "header_type") := by
  decide

/-- C9 amended: the splitters preserve every original metadata entry
whose key is none of the reserved keys `chunkno` and `header_type`; an
original entry under a reserved key is overwritten by the splitter. -/
theorem splitters_preserve_unreserved_keys (split_text : String → List String)
    (soupOf : String → List LangchainSplitters.Elem)
    (headers_to_split_on : List String) (doc : Document) (k : String)
    (h1 : k ≠ "chunkno") (h2 : k ≠ "header_type") :
    (∀ c ∈ LangchainSplitters.chunkDoc split_text doc,
        c.metadata.lookup k = doc.metadata.lookup k)
    ∧ (∀ c ∈ LangchainSplitters.htmlChunkDoc soupOf split_text headers_to_split_on doc,
        c.metadata.lookup k = doc.metadata.lookup k) := by
  constructor
  · intro c hc
    obtain ⟨p, hp, rfl⟩ := List.mem_map.mp hc
    exact lookup_msetKey_ne doc.metadata "chunkno" (MetaVal.num (p.1 + 1)) k h1
  · intro c hc
    obtain ⟨l, hl, hcl⟩ := List.mem_flatten.mp hc
    obtain ⟨p, hp, rfl⟩ := List.mem_map.mp hl
    obtain ⟨q, hq, rfl⟩ := List.mem_map.mp hcl
    show (msetKey (msetKey doc.metadata "chunkno" _) "header_type" _).lookup k = _
    rw [lookup_msetKey_ne _ "header_type" _ k h2]
    exact lookup_msetKey_ne doc.metadata "chunkno" _ k h1

/-- A source document for the C9 witness carrying an ordinary key. -/
def htmlSourceDoc : Document :=
  { page_content := "<h1>t</h1>", metadata := [("source", MetaVal.str "file.html")] }

/-- Witness for the amended C9 on a concrete document: the `source`
entry survives into every chunk of both splitters. -/
theorem splitters_preserve_unreserved_keys_witness :
    (∀ c ∈ LangchainSplitters.chunkDoc splitOne htmlSourceDoc,
        c.metadata.lookup "source" = htmlSourceDoc.metadata.lookup "source")
    ∧ (∀ c ∈ LangchainSplitters.htmlChunkDoc soupOne splitOne ["h1"] htmlSourceDoc,
        c.metadata.lookup "source" = htmlSourceDoc.metadata.lookup "source") :=
  splitters_preserve_unreserved_keys splitOne soupOne ["h1"] htmlSourceDoc
    "source" (by decide) (by decide)

/-! Helper lemmas: a raised exception anywhere in a splitting loop makes
the whole body raise. -/

theorem recursiveSplitBody_error (split_text : String → Except String (List String))
    (docs : List Document)
    (h : ∃ d ∈ docs, (split_text d.page_content).isOk = false) :
    ∃ e, LangchainSplitters.recursiveSplitBody split_text docs = .error e := by
  induction docs with
  | nil => simp at h
  | cons d ds ih =>
      obtain ⟨x, hx, hfail⟩ := h
      rcases List.mem_cons.mp hx with hxd | hxds
      · subst hxd
        cases hsplit : split_text x.page_content with
        | ok s => rw [hsplit] at hfail; simp [Except.isOk, Except.toBool] at hfail
        | error e =>
            exact ⟨e, by simp [LangchainSplitters.recursiveSplitBody, hsplit,
              Bind.bind, Except.bind]⟩
      · obtain ⟨e, he⟩ := ih ⟨x, hxds, hfail⟩
        cases hsplit : split_text d.page_content with
        | ok s =>
            exact ⟨e, by simp [LangchainSplitters.recursiveSplitBody, hsplit, he,
              Bind.bind, Except.bind]⟩
        | error e2 =>
            exact ⟨e2, by simp [LangchainSplitters.recursiveSplitBody, hsplit,
              Bind.bind, Except.bind]⟩

theorem characterSplitBody_error (split_text : String → Except String (List String))
    (docs : List Document)
    (h : ∃ d ∈ docs, (split_text d.page_content).isOk = false) :
    ∃ e, LangchainSplitters.characterSplitBody split_text docs = .error e := by
  induction docs with
  | nil => simp at h
  | cons d ds ih =>
      obtain ⟨x, hx, hfail⟩ := h
      rcases List.mem_cons.mp hx with hxd | hxds
      · subst hxd
        cases hsplit : split_text x.page_content with
        | ok s => rw [hsplit] at hfail; simp [Except.isOk, Except.toBool] at hfail
        | error e =>
            exact ⟨e, by simp [LangchainSplitters.characterSplitBody, hsplit,
              Bind.bind, Except.bind]⟩
      · obtain ⟨e, he⟩ := ih ⟨x, hxds, hfail⟩
        cases hsplit : split_text d.page_content with
        | ok s =>
            exact ⟨e, by simp [LangchainSplitters.characterSplitBody, hsplit, he,
              Bind.bind, Except.bind]⟩
        | error e2 =>
            exact ⟨e2, by simp [LangchainSplitters.characterSplitBody, hsplit,
              Bind.bind, Except.bind]⟩

theorem htmlSectionsBody_error (split_text : String → Except String (List String))
    (doc : Document) (ps : List (Nat × (String × String)))
    (h : ∃ p ∈ ps, (split_text p.2.2).isOk = false) :
    ∃ e, LangchainSplitters.htmlSectionsBody split_text doc ps = .error e := by
  induction ps with
  | nil => simp at h
  | cons p ps ih =>
      obtain ⟨x, hx, hfail⟩ := h
      rcases List.mem_cons.mp hx with hxp | hxps
      · subst hxp
        cases hsplit : split_text x.2.2 with
        | ok s => rw [hsplit] at hfail; simp [Except.isOk, Except.toBool] at hfail
        | error e =>
            exact ⟨e, by simp [LangchainSplitters.htmlSectionsBody, hsplit,
              Bind.bind, Except.bind]⟩
      · obtain ⟨e, he⟩ := ih ⟨x, hxps, hfail⟩
        cases hsplit : split_text p.2.2 with
        | ok s =>
            exact ⟨e, by simp [LangchainSplitters.htmlSectionsBody, hsplit, he,
              Bind.bind, Except.bind]⟩
        | error e2 =>
            exact ⟨e2, by simp [LangchainSplitters.htmlSectionsBody, hsplit,
              Bind.bind, Except.bind]⟩

theorem htmlSplitBody_error (soupOf : String → List LangchainSplitters.Elem)
    (split_text : String → Except String (List String))
    (headers_to_split_on : List String) (docs : List Document)
    (h : ∃ d ∈ docs, ∃ sec ∈ LangchainSplitters.htmlSections (soupOf d.page_content)
        headers_to_split_on, (split_text sec.2).isOk = false) :
    ∃ e, LangchainSplitters.htmlSplitBody soupOf split_text headers_to_split_on docs
      = .error e := by
  induction docs with
  | nil => simp at h
  | cons d ds ih =>
      obtain ⟨x, hx, sec, hsec, hfail⟩ := h
      rcases List.mem_cons.mp hx with hxd | hxds
      · subst hxd
        have hsec2 : sec ∈ (LangchainSplitters.htmlSections (soupOf x.page_content)
            headers_to_split_on).enum.map Prod.snd := by
          rw [List.enum_map_snd]; exact hsec
        obtain ⟨p, hp, hpsnd⟩ := List.mem_map.mp hsec2
        have hfail2 : (split_text p.2.2).isOk = false := by rw [hpsnd]; exact hfail
        obtain ⟨e, he⟩ := htmlSectionsBody_error split_text x _ ⟨p, hp, hfail2⟩
        exact ⟨e, by simp [LangchainSplitters.htmlSplitBody, he, Bind.bind, Except.bind]⟩
      · obtain ⟨e, he⟩ := ih ⟨x, hxds, sec, hsec, hfail⟩
        cases hbody : LangchainSplitters.htmlSectionsBody split_text d
            ((LangchainSplitters.htmlSections (soupOf d.page_content)
              headers_to_split_on).enum) with
        | ok s =>
            exact ⟨e, by simp [LangchainSplitters.htmlSplitBody, hbody, he,
              Bind.bind, Except.bind]⟩
        | error e2 =>
            exact ⟨e2, by simp [LangchainSplitters.htmlSplitBody, hbody,
              Bind.bind, Except.bind]⟩

/-- C3: if the delegated splitting of any document (or, for the HTML
splitter, of any extracted section) raises, every splitter method
catches the exception, logs one diagnostic and returns the empty list —
no splitter call propagates an exception to the caller. -/
theorem splitters_catch_exceptions (split_text : String → Except String (List String))
    (soupOf : String → List LangchainSplitters.Elem)
    (headers_to_split_on : List String) (docs : List Document) :
    ((∃ d ∈ docs, (split_text d.page_content).isOk = false) →
        ∃ e, LangchainSplitters.recursive_text_splitter split_text docs =
          ([], ["Error in recursive_text_splitter: " ++ e]))
    ∧ ((∃ d ∈ docs, (split_text d.page_content).isOk = false) →
        ∃ e, LangchainSplitters.character_text_splitter split_text docs =
          ([], ["Error in character_text_splitter: " ++ e]))
    ∧ ((∃ d ∈ docs, ∃ sec ∈ LangchainSplitters.htmlSections (soupOf d.page_content)
          headers_to_split_on, (split_text sec.2).isOk = false) →
        ∃ e, LangchainSplitters.html_splitter soupOf split_text headers_to_split_on docs
          = ([], ["Error in html_splitter: " ++ e])) := by
  refine ⟨?_, ?_, ?_⟩
  · intro h
    obtain ⟨e, he⟩ := recursiveSplitBody_error split_text docs h
    exact ⟨e, by simp [LangchainSplitters.recursive_text_splitter, he]⟩
  · intro h
    obtain ⟨e, he⟩ := characterSplitBody_error split_text docs h
    exact ⟨e, by simp [LangchainSplitters.character_text_splitter, he]⟩
  · intro h
    obtain ⟨e, he⟩ := htmlSplitBody_error soupOf split_text headers_to_split_on docs h
    exact ⟨e, by simp [LangchainSplitters.html_splitter, he]⟩

/-- A delegated splitter behaviour that always raises. -/
def splitFail : String → Except String (List String) := fun _ => .error "boom"

/-- A document used to exercise the exception policy. -/
def plainDoc : Document := { page_content := "<h1>t</h1>", metadata := [] }

/-- Witness for C3: with a concrete always-raising delegated splitter on
a concrete document, all three splitter methods return the empty list and
one diagnostic. -/
theorem splitters_catch_exceptions_witness :
    (∃ e, LangchainSplitters.recursive_text_splitter splitFail [plainDoc] =
      ([], ["Error in recursive_text_splitter: " ++ e]))
    ∧ (∃ e, LangchainSplitters.character_text_splitter splitFail [plainDoc] =
      ([], ["Error in character_text_splitter: " ++ e]))
    ∧ (∃ e, LangchainSplitters.html_splitter soupOne splitFail ["h1"] [plainDoc] =
      ([], ["Error in html_splitter: " ++ e])) := by
  obtain ⟨h1, h2, h3⟩ := splitters_catch_exceptions splitFail soupOne ["h1"] [plainDoc]
  exact ⟨h1 (by decide), h2 (by decide), h3 (by decide)⟩

namespace LangchainSplitters

/-- The originating tag of an HTML chunk: the string stored under its
`header_type` metadata key. -/
def headerTag (c : Document) : String :=
  match c.metadata.lookup "header_type" with
  | some (MetaVal.str t) => t
  | _ => ""

end LangchainSplitters

/-- The ordering property claimed for the HTML splitter output: along the
chunk list, the position (in the given tag list) of each chunk's
originating tag is non-decreasing — every chunk of an earlier-listed tag
precedes every chunk of a later-listed tag. -/
abbrev TagGrouped (headers : List String) (chunks : List Document) : Prop :=
  (chunks.map LangchainSplitters.headerTag).Pairwise
    (fun a b => headers.indexOf a ≤ headers.indexOf b)

/-- BeautifulSoup's behaviour on the concrete HTML contents used for the
C1 counterexample and witness. -/
def soupCex : String → List LangchainSplitters.Elem := fun s =>
  if s = "<h2>b</h2>" then [{ tag := "h2", text := "b" }]
  else if s = "<h1>a</h1>" then [{ tag := "h1", text := "a" }]
  else if s = "<h1>x</h1><h2>y</h2>" then
    [{ tag := "h1", text := "x" }, { tag := "h2", text := "y" }]
  else if s = "<h1>x</h1><h2>y</h2><h1>z</h1>" then
    [{ tag := "h1", text := "x" }, { tag := "h2", text := "y" },
      { tag := "h1", text := "z" }]
  else []

/-- A document containing only an h2 element. -/
def docOnlyH2 : Document := { page_content := "<h2>b</h2>", metadata := [] }

/-- A document containing only an h1 element. -/
def docOnlyH1 : Document := { page_content := "<h1>a</h1>", metadata := [] }

/-- A document containing an h1 followed by an h2. -/
def docH1H2 : Document := { page_content := "<h1>x</h1><h2>y</h2>", metadata := [] }

/-- A document with two h1 elements and one h2 element between them. -/
def docTwoH1 : Document :=
  { page_content := "<h1>x</h1><h2>y</h2><h1>z</h1>", metadata := [] }

/-- C1 counterexample: over a document LIST the output is grouped per
document, not globally by tag — with `["h1","h2"]` on the list
[document with one h2, document with one h1] the h2-derived chunk
precedes the h1-derived chunk; and with a duplicated tag list
`["h1","h2","h1"]` even a single document's chunks are not grouped by
tag. -/
theorem html_splitter_tag_order_cex :
    ¬ TagGrouped ["h1", "h2"]
        (LangchainSplitters.htmlCore soupCex splitOne ["h1", "h2"]
          [docOnlyH2, docOnlyH1])
    ∧ ¬ TagGrouped ["h1", "h2", "h1"]
        (LangchainSplitters.htmlCore soupCex splitOne ["h1", "h2", "h1"]
          [docH1H2]) := by
  constructor
  · decide
  · decide

/-- Auxiliary grouping lemma: a concatenation, over a duplicate-free key
list, of blocks whose elements all equal their key is sorted by key
position. -/
theorem grouped_blocks (hs : List String) (blocks : String → List String)
    (hb : ∀ h x, x ∈ blocks h → x = h) (hnd : hs.Nodup) :
    ((hs.map blocks).flatten).Pairwise (fun a b => hs.indexOf a ≤ hs.indexOf b) := by
  induction hs with
  | nil => simp
  | cons h t ih =>
      obtain ⟨hht, hndt⟩ := List.nodup_cons.mp hnd
      have hmem : ∀ x ∈ (t.map blocks).flatten, x ∈ t := by
        intro x hx
        obtain ⟨l, hl, hxl⟩ := List.mem_flatten.mp hx
        obtain ⟨h2, hh2, rfl⟩ := List.mem_map.mp hl
        exact (hb h2 x hxl) ▸ hh2
      simp only [List.map_cons, List.flatten_cons]
      rw [List.pairwise_append]
      refine ⟨?_, ?_, ?_⟩
      · apply List.pairwise_of_forall_mem_list
        intro a ha b hb2
        rw [hb h a ha, hb h b hb2]
      · refine List.Pairwise.imp_of_mem ?_ (ih hndt)
        intro a b ha hb3 hle
        have hat : a ∈ t := hmem a ha
        have hbt : b ∈ t := hmem b hb3
        have hane : a ≠ h := fun he => hht (he ▸ hat)
        have hbne : b ≠ h := fun he => hht (he ▸ hbt)
        rw [List.indexOf_cons_ne t (Ne.symm hane), List.indexOf_cons_ne t (Ne.symm hbne)]
        exact Nat.succ_le_succ hle
      · intro a ha b hb4
        rw [hb h a ha, List.indexOf_cons_self]
        exact Nat.zero_le _

/-- The tag sequence of one document's chunks, with the section
enumeration removed. -/
theorem htmlChunkDoc_map_headerTag (split_text : String → List String)
    (doc : Document) (sections : List (String × String)) :
    (((sections.enum).map
        (fun p => ((split_text p.2.2).enum).map
          (LangchainSplitters.mkHtmlChunk doc p))).flatten).map
      LangchainSplitters.headerTag =
    (sections.map (fun s => (split_text s.2).enum.map (fun _ => s.1))).flatten := by
  rw [List.map_flatten, List.map_map]
  have h2 : sections.map (fun s => (split_text s.2).enum.map (fun _ => s.1)) =
      sections.enum.map
        (fun p => (split_text p.2.2).enum.map (fun _ => p.2.1)) := by
    conv_lhs => rw [← List.enum_map_snd sections]
    rw [List.map_map]
    rfl
  rw [h2]
  congr 1
  apply List.map_congr_left
  intro p hp
  simp only [Function.comp, List.map_map]
  apply List.map_congr_left
  intro q hq
  show LangchainSplitters.headerTag (LangchainSplitters.mkHtmlChunk doc p q) = p.2.1
  simp [LangchainSplitters.headerTag, LangchainSplitters.mkHtmlChunk, lookup_msetKey_self]

/-- C1 amended: the HTML splitter output is the concatenation, in input
order, of the per-document chunk lists, and within the chunks derived
from any single source document the chunks are grouped by tag in the
order of the (duplicate-free) `headers_to_split_on` list, regardless of
where the tag occurrences appear in that document. -/
theorem html_splitter_groups_tags_per_document
    (soupOf : String → List LangchainSplitters.Elem)
    (split_text : String → List String)
    (headers_to_split_on : List String) (docs : List Document) (doc : Document)
    (hnd : headers_to_split_on.Nodup) :
    LangchainSplitters.htmlCore soupOf split_text headers_to_split_on docs =
      (docs.map
        (LangchainSplitters.htmlChunkDoc soupOf split_text headers_to_split_on)).flatten
    ∧ TagGrouped headers_to_split_on
      (LangchainSplitters.htmlChunkDoc soupOf split_text headers_to_split_on doc) := by
  refine ⟨rfl, ?_⟩
  show ((LangchainSplitters.htmlChunkDoc soupOf split_text headers_to_split_on doc).map
      LangchainSplitters.headerTag).Pairwise
    (fun a b => headers_to_split_on.indexOf a ≤ headers_to_split_on.indexOf b)
  have hA : (LangchainSplitters.htmlChunkDoc soupOf split_text headers_to_split_on doc).map
      LangchainSplitters.headerTag =
      (headers_to_split_on.map (fun h =>
        (((LangchainSplitters.find_all (soupOf doc.page_content) h).map
            (fun e => (h, e.text))).map
          (fun s => (split_text s.2).enum.map (fun _ => s.1))).flatten)).flatten := by
    unfold LangchainSplitters.htmlChunkDoc
    rw [htmlChunkDoc_map_headerTag]
    unfold LangchainSplitters.htmlSections
    rw [List.map_flatten, List.map_map, List.flatten_flatten, List.map_map]
    rfl
  rw [hA]
  apply grouped_blocks headers_to_split_on _ ?_ hnd
  intro h x hx
  obtain ⟨l, hl, hxl⟩ := List.mem_flatten.mp hx
  obtain ⟨s, hs2, rfl⟩ := List.mem_map.mp hl
  obtain ⟨e, he, rfl⟩ := List.mem_map.mp hs2
  obtain ⟨q, hq, rfl⟩ := List.mem_map.mp hxl
  rfl

/-- Witness for the amended C1 on the spec's example shape: a single
document with two h1 elements and one h2 element between them, split on
`["h1","h2"]` — the output is grouped with all h1 chunks first. -/
theorem html_splitter_groups_tags_per_document_witness :
    LangchainSplitters.htmlCore soupCex splitTwo ["h1", "h2"] [docTwoH1] =
      ([docTwoH1].map
        (LangchainSplitters.htmlChunkDoc soupCex splitTwo ["h1", "h2"])).flatten
    ∧ TagGrouped ["h1", "h2"]
      (LangchainSplitters.htmlChunkDoc soupCex splitTwo ["h1", "h2"] docTwoH1) :=
  html_splitter_groups_tags_per_document soupCex splitTwo ["h1", "h2"]
    [docTwoH1] docTwoH1 (by decide)

/-- Consistency of the two embeddings of `recursive_text_splitter`: when
the delegated splitter never raises, the exception-aware body computes
exactly the success-path core. -/
theorem recursiveSplitBody_of_total (g : String → List String) (docs : List Document) :
    LangchainSplitters.recursiveSplitBody (fun s => .ok (g s)) docs =
      .ok (LangchainSplitters.recursiveCore g docs) := by
  induction docs with
  | nil => rfl
  | cons d ds ih =>
      simp [LangchainSplitters.recursiveSplitBody, LangchainSplitters.recursiveCore,
        LangchainSplitters.chunkDoc, ih, Bind.bind, Except.bind, Pure.pure, Except.pure]
